import Mathlib

/-!
Shallow embedding of the midi-mcp-server tool handlers (src/index.ts) and of
`MidiService.sendMessage` (src/services/MidiService.ts), together with proofs
of the specification claims about them.

Conventions of the embedding:
* A tool handler becomes a pure function from an argument record to
  `Except String (List Item × String)`: the error branch models the thrown
  `Error`, the ok branch carries the ordered trace of observable effects
  (`sendMessage` calls, `logMidi` calls, `setTimeout` waits) and the returned
  text.
* Optional / possibly-missing JS fields become `Option` fields; the JS
  truthiness test `!args.port` is `truthyStr`, and `x === undefined` is
  `Option.isNone`.
* JS numbers that the tool schemas declare as integers are `Int` (so that the
  unvalidated arithmetic, e.g. `(channel ?? 1) - 1` at channel 0, is exact);
  millisecond durations declared as integers are `Nat`; the song's musical
  durations (numbers in beats) and the derived millisecond values are `Rat`.
* The JS bit operations in the pitch-bend encoder, `& 0x7F` and `>> 7`,
  applied to a 32-bit-range integer, are `Int.emod 128` and `Int.ediv 128`
  (two's-complement masking and arithmetic shift agree with Euclidean
  mod / floor division by a positive power of two).
-/

namespace MidiMcp

/-- One observable effect of a handler: a `midi.sendMessage(port, bytes)`
call, a `logMidi('OUT', port, bytes)` call, or an awaited
`setTimeout`-based wait of `ms` milliseconds. -/
inductive Item where
  | send : String → List Int → Item
  | log : String → List Int → Item
  | wait : Rat → Item
deriving Repr, DecidableEq

/-- JS truthiness of a possibly-undefined string (`!args.port` fails for
`undefined` and for the empty string). -/
def truthyStr : Option String → Bool
  | none => false
  | some s => !(s == "")

/-- The ring update performed by `logMidi` on the module-level `midiLogs`
buffer: `midiLogs.unshift(log); if (midiLogs.length > MAX_LOGS) midiLogs.pop()`
with `MAX_LOGS = 100`.  The formatted entry string is abstracted to an
arbitrary entry value; only the ring discipline is modelled. -/
def logMidi {α : Type} (entry : α) (logs : List α) : List α :=
  let logs1 := entry :: logs
  if logs1.length > 100 then logs1.dropLast else logs1

/-- Replay the `logMidi` calls of a trace onto a log buffer whose entries are
`(port, bytes)` pairs. -/
def applyItems (items : List Item) (logs : List (String × List Int)) :
    List (String × List Int) :=
  items.foldl
    (fun acc item =>
      match item with
      | .log p b => logMidi (p, b) acc
      | _ => acc)
    logs

/-- Run a handler result against a log buffer: a thrown error leaves the
buffer untouched, a successful call replays its `logMidi` calls. -/
def runHandler (r : Except String (List Item × String))
    (logs : List (String × List Int)) :
    List (String × List Int) × Except String String :=
  match r with
  | .error e => (logs, .error e)
  | .ok (items, text) => (applyItems items logs, .ok text)

/-! ### Immediate-mode handlers -/

/-- Arguments of the `midi_send` tool. -/
structure SendArgs where
  port : Option String
  bytes : Option (List Int)

/-- The `midi_send` case of the tool dispatcher. -/
def midi_send (args : SendArgs) : Except String (List Item × String) :=
  if !(truthyStr args.port) || args.bytes.isNone then
    .error "Missing arguments: port and bytes are required"
  else
    let port := args.port.getD ""
    let bytes := args.bytes.getD []
    .ok ([.send port bytes, .log port bytes],
      "Sent MIDI message to " ++ port)

/-- Arguments of the `midi_note_on` / `midi_note_off` tools. -/
structure NoteArgs where
  port : Option String
  note : Option Int
  velocity : Option Int
  channel : Option Int

/-- The `midi_note_on` case of the tool dispatcher. -/
def midi_note_on (args : NoteArgs) : Except String (List Item × String) :=
  if !(truthyStr args.port) || args.note.isNone then
    .error "Missing arguments: port and note are required"
  else
    let port := args.port.getD ""
    let note := args.note.getD 0
    let velocity := args.velocity.getD 64
    let channel := args.channel.getD 1 - 1
    let statusByte : Int := 0x90 + channel
    let message := [statusByte, note, velocity]
    .ok ([.send port message, .log port message],
      "Note On: note " ++ toString note ++ ", velocity " ++ toString velocity ++
        ", channel " ++ toString (channel + 1))

/-- The `midi_note_off` case of the tool dispatcher. -/
def midi_note_off (args : NoteArgs) : Except String (List Item × String) :=
  if !(truthyStr args.port) || args.note.isNone then
    .error "Missing arguments: port and note are required"
  else
    let port := args.port.getD ""
    let note := args.note.getD 0
    let velocity := args.velocity.getD 64
    let channel := args.channel.getD 1 - 1
    let statusByte : Int := 0x80 + channel
    let message := [statusByte, note, velocity]
    .ok ([.send port message, .log port message],
      "Note Off: note " ++ toString note ++ ", velocity " ++ toString velocity ++
        ", channel " ++ toString (channel + 1))

/-- Arguments of the `midi_play_note` tool. -/
structure PlayNoteArgs where
  port : Option String
  note : Option Int
  velocity : Option Int
  duration : Option Nat
  channel : Option Int

/-- The `midi_play_note` case of the tool dispatcher.  The `setTimeout`
deferred note-off is returned separately from the immediate trace, as
`(immediate items, (delay ms, deferred items), text)`. -/
def midi_play_note (args : PlayNoteArgs) :
    Except String (List Item × (Rat × List Item) × String) :=
  if !(truthyStr args.port) || args.note.isNone then
    .error "Missing arguments: port and note are required"
  else
    let port := args.port.getD ""
    let note := args.note.getD 0
    let velocity := args.velocity.getD 64
    let duration := args.duration.getD 500
    let channel := args.channel.getD 1 - 1
    let noteOnMessage := [0x90 + channel, note, velocity]
    let noteOffMessage := [0x80 + channel, note, velocity]
    .ok ([.send port noteOnMessage, .log port noteOnMessage],
      ((duration : Rat), [.send port noteOffMessage, .log port noteOffMessage]),
      "Playing note " ++ toString note ++ " for " ++ toString duration ++
        "ms (velocity " ++ toString velocity ++ ", channel " ++
        toString (channel + 1) ++ ")")

/-- Run a `midi_play_note` result against a log buffer (the deferred note-off
items are replayed after the immediate ones). -/
def runPlayNote (r : Except String (List Item × (Rat × List Item) × String))
    (logs : List (String × List Int)) :
    List (String × List Int) × Except String String :=
  match r with
  | .error e => (logs, .error e)
  | .ok (items, (_, deferredItems), text) =>
      (applyItems (items ++ deferredItems) logs, .ok text)

/-- Arguments of the `midi_control_change` tool. -/
structure CCArgs where
  port : Option String
  controller : Option Int
  value : Option Int
  channel : Option Int

/-- The `midi_control_change` case of the tool dispatcher. -/
def midi_control_change (args : CCArgs) : Except String (List Item × String) :=
  if !(truthyStr args.port) || args.controller.isNone || args.value.isNone then
    .error "Missing arguments: port, controller, and value are required"
  else
    let port := args.port.getD ""
    let controller := args.controller.getD 0
    let value := args.value.getD 0
    let channel := args.channel.getD 1 - 1
    let statusByte : Int := 0xB0 + channel
    let message := [statusByte, controller, value]
    .ok ([.send port message, .log port message],
      "CC: controller " ++ toString controller ++ ", value " ++ toString value ++
        ", channel " ++ toString (channel + 1))

/-- Arguments of the `midi_program_change` tool. -/
structure ProgramArgs where
  port : Option String
  program : Option Int
  channel : Option Int

/-- The `midi_program_change` case of the tool dispatcher. -/
def midi_program_change (args : ProgramArgs) : Except String (List Item × String) :=
  if !(truthyStr args.port) || args.program.isNone then
    .error "Missing arguments: port and program are required"
  else
    let port := args.port.getD ""
    let program := args.program.getD 0
    let channel := args.channel.getD 1 - 1
    let statusByte : Int := 0xC0 + channel
    let message := [statusByte, program]
    .ok ([.send port message, .log port message],
      "Program Change: program " ++ toString program ++ ", channel " ++
        toString (channel + 1))

/-- Arguments of the `midi_pitch_bend` tool. -/
structure BendArgs where
  port : Option String
  value : Option Int
  channel : Option Int

/-- The `midi_pitch_bend` case of the tool dispatcher.
`bendValue & 0x7F` is `bendValue % 128` (Euclidean mod); `(bendValue >> 7) &
0x7F` is `bendValue / 128 % 128` (Euclidean division). -/
def midi_pitch_bend (args : BendArgs) : Except String (List Item × String) :=
  if !(truthyStr args.port) || args.value.isNone then
    .error "Missing arguments: port and value are required"
  else
    let port := args.port.getD ""
    let value := args.value.getD 0
    let channel := args.channel.getD 1 - 1
    let bendValue := value + 8192
    let lsb := bendValue % 128
    let msb := bendValue / 128 % 128
    let statusByte : Int := 0xE0 + channel
    let message := [statusByte, lsb, msb]
    .ok ([.send port message, .log port message],
      "Pitch Bend: " ++ toString value ++ ", channel " ++ toString (channel + 1))

/-! ### Scheduled handlers: sequence and chord -/

/-- One element of the `notes` array of `midi_play_sequence`. -/
structure SeqNote where
  note : Int
  velocity : Option Int
  duration : Option Nat
deriving Repr, DecidableEq

/-- Arguments of the `midi_play_sequence` tool. -/
structure SeqArgs where
  port : Option String
  notes : Option (List SeqNote)
  channel : Option Int

/-- The `midi_play_sequence` case of the tool dispatcher: the `for`-loop over
`args.notes` accumulating the trace and `totalDuration` is a `List.foldl`. -/
def midi_play_sequence (args : SeqArgs) : Except String (List Item × String) :=
  if !(truthyStr args.port) || args.notes.isNone || (args.notes.getD []).isEmpty then
    .error "Missing arguments: port and notes are required"
  else
    let port := args.port.getD ""
    let notes := args.notes.getD []
    let channel := args.channel.getD 1 - 1
    let noteOnStatus : Int := 0x90 + channel
    let noteOffStatus : Int := 0x80 + channel
    let result := notes.foldl
      (fun (acc : List Item × Nat) noteInfo =>
        let velocity := noteInfo.velocity.getD 64
        let duration := noteInfo.duration.getD 500
        let noteOnMessage := [noteOnStatus, noteInfo.note, velocity]
        let noteOffMessage := [noteOffStatus, noteInfo.note, velocity]
        (acc.1 ++ [.send port noteOnMessage, .log port noteOnMessage,
                   .wait (duration : Rat),
                   .send port noteOffMessage, .log port noteOffMessage],
         acc.2 + duration))
      ([], 0)
    .ok (result.1,
      "Played sequence of " ++ toString notes.length ++ " notes (" ++
        toString result.2 ++ "ms total) on channel " ++ toString (channel + 1))

/-- Arguments of the `midi_play_chord` tool. -/
structure ChordArgs where
  port : Option String
  notes : Option (List Int)
  velocity : Option Int
  duration : Option Nat
  channel : Option Int

/-- The `midi_play_chord` case of the tool dispatcher: all note-ons, one wait,
all note-offs. -/
def midi_play_chord (args : ChordArgs) : Except String (List Item × String) :=
  if !(truthyStr args.port) || args.notes.isNone || (args.notes.getD []).isEmpty then
    .error "Missing arguments: port and notes are required"
  else
    let port := args.port.getD ""
    let notes := args.notes.getD []
    let channel := args.channel.getD 1 - 1
    let velocity := args.velocity.getD 64
    let duration := args.duration.getD 500
    let noteOnStatus : Int := 0x90 + channel
    let noteOffStatus : Int := 0x80 + channel
    .ok (notes.flatMap (fun note =>
            [.send port [noteOnStatus, note, velocity],
             .log port [noteOnStatus, note, velocity]])
          ++ [.wait (duration : Rat)]
          ++ notes.flatMap (fun note =>
            [.send port [noteOffStatus, note, velocity],
             .log port [noteOffStatus, note, velocity]]),
      "Played chord with " ++ toString notes.length ++ " notes for " ++
        toString duration ++ "ms on channel " ++ toString (channel + 1))

/-! ### The song scheduler -/

/-- The `note` field of a song's note event: a single number or an array
(chord), resolved by `Array.isArray(noteEvent.note) ? noteEvent.note :
[noteEvent.note]`. -/
inductive NoteField where
  | single : Int → NoteField
  | chord : List Int → NoteField
deriving Repr, DecidableEq

/-- A musical duration: a named symbolic value (string) or a beat count. -/
inductive DurVal where
  | str : String → DurVal
  | num : Rat → DurVal
deriving Repr, DecidableEq

/-- The optional `cc` object of a song's note event. -/
structure CCSpec where
  controller : Int
  value : Int
deriving Repr, DecidableEq

/-- One element of a track's `notes` array in `midi_play_song`. -/
structure SongNote where
  note : NoteField
  duration : DurVal
  velocity : Option Int
  cc : Option CCSpec
deriving Repr, DecidableEq

/-- One element of the `tracks` array of `midi_play_song`. -/
structure Track where
  port : Option String
  channel : Option Int
  instrument : Option Int
  loop : Option Nat
  notes : List SongNote
deriving Repr, DecidableEq

/-- Arguments of the `midi_play_song` tool. -/
structure SongArgs where
  port : Option String
  bpm : Option Rat
  tracks : Option (List Track)

/-- Milliseconds per beat: `const beatDuration = (60 / bpm) * 1000`. -/
def beatDurationMs (bpm : Rat) : Rat := 60 / bpm * 1000

/-- The `getDuration` helper closed over `beatDuration` inside
`midi_play_song`: converts a note duration to milliseconds. -/
def getDuration (beatDuration : Rat) : DurVal → Rat
  | .num d => d * beatDuration
  | .str s =>
      if s == "whole" then beatDuration * 4
      else if s == "half" then beatDuration * 2
      else if s == "quarter" then beatDuration
      else if s == "eighth" then beatDuration / 2
      else if s == "sixteenth" then beatDuration / 4
      else beatDuration

/-- The notes of a note event: `Array.isArray(noteEvent.note) ?
noteEvent.note : [noteEvent.note]`. -/
def eventNotes : NoteField → List Int
  | .chord ns => ns
  | .single n => [n]

/-- The trace of one iteration of the inner `for (const noteEvent of
track.notes)` body: optional CC, note-ons, the awaited wait, note-offs. -/
def noteEventTrace (trackPort : String) (channel : Int) (beatDuration : Rat)
    (noteEvent : SongNote) : List Item :=
  let velocity := noteEvent.velocity.getD 64
  let duration := getDuration beatDuration noteEvent.duration
  let notes := eventNotes noteEvent.note
  let ccItems := match noteEvent.cc with
    | some c =>
        [Item.send trackPort [0xB0 + channel, c.controller, c.value],
         Item.log trackPort [0xB0 + channel, c.controller, c.value]]
    | none => []
  let noteOnStatus : Int := 0x90 + channel
  let noteOffStatus : Int := 0x80 + channel
  ccItems
    ++ notes.flatMap (fun note =>
        [Item.send trackPort [noteOnStatus, note, velocity],
         Item.log trackPort [noteOnStatus, note, velocity]])
    ++ [Item.wait duration]
    ++ notes.flatMap (fun note =>
        [Item.send trackPort [noteOffStatus, note, velocity],
         Item.log trackPort [noteOffStatus, note, velocity]])

/-- The full timeline of one track (the body of the `args.tracks.map`
closure): optional program change, then the counted `for (let loop = 0;
loop < loops; loop++)` over the event list. -/
def trackTrace (defaultPort : String) (beatDuration : Rat) (track : Track) :
    List Item :=
  let trackPort := track.port.getD defaultPort
  let channel := track.channel.getD 1 - 1
  let loops := track.loop.getD 1
  let pcItems := match track.instrument with
    | some instrument =>
        [Item.send trackPort [0xC0 + channel, instrument],
         Item.log trackPort [0xC0 + channel, instrument]]
    | none => []
  pcItems
    ++ (List.range loops).flatMap
        (fun _ => track.notes.flatMap (noteEventTrace trackPort channel beatDuration))

/-- The `midi_play_song` case of the tool dispatcher.  The tracks run
concurrently (`Promise.all`); each track's own timeline is totally ordered,
so the result carries the list of per-track traces, with no cross-track
interleaving fixed. -/
def midi_play_song (args : SongArgs) :
    Except String (List (List Item) × String) :=
  if !(truthyStr args.port) || args.tracks.isNone || (args.tracks.getD []).isEmpty then
    .error "Missing arguments: port and tracks are required"
  else
    let port := args.port.getD ""
    let tracks := args.tracks.getD []
    let bpm := args.bpm.getD 120
    let beatDuration := beatDurationMs bpm
    .ok (tracks.map (trackTrace port beatDuration),
      "Played song with " ++ toString tracks.length ++ " tracks at " ++
        toString bpm ++ " BPM")

/-! ### MidiService.sendMessage and its output-handle cache -/

/-- An event at the port-transport boundary: a successful `openMidiOut` or a
`port.send`. -/
inductive PortEvent where
  | opened : String → PortEvent
  | sent : String → List Int → PortEvent
deriving Repr, DecidableEq

/-- The mutable state of the `MidiService` singleton that `sendMessage`
touches: the `activeOutputs` map (an association list keyed by port name) and
a supply of fresh handles standing for the abstract JZZ port objects. -/
structure MidiServiceSt where
  activeOutputs : List (String × Nat)
  nextHandle : Nat
deriving Repr, DecidableEq

/-- Cache lookup `this.activeOutputs.get(portName)`. -/
def lookupOut (outs : List (String × Nat)) (name : String) : Option Nat :=
  (outs.find? (fun kv => kv.1 == name)).map (fun kv => kv.2)

/-- Model of `MidiService.sendMessage`: reuse the cached output handle, otherwise try
`openMidiOut` (success governed by the environment `canOpen`) and cache the
freshly opened handle; a failed open throws and leaves the cache unchanged. -/
def sendMessage (canOpen : String → Bool) (st : MidiServiceSt)
    (portName : String) (message : List Int) :
    Except String (MidiServiceSt × List PortEvent) :=
  match lookupOut st.activeOutputs portName with
  | some _ => .ok (st, [.sent portName message])
  | none =>
      if canOpen portName then
        .ok (⟨(portName, st.nextHandle) :: st.activeOutputs, st.nextHandle + 1⟩,
          [.opened portName, .sent portName message])
      else
        .error ("Failed to open MIDI output port: " ++ portName)

/-- Run a list of `sendMessage` calls.  Each call is a separate tool
invocation: a thrown open failure is terminal for that call only, the
service state persists across calls. -/
def runSends (canOpen : String → Bool) :
    MidiServiceSt → List (String × List Int) → MidiServiceSt × List PortEvent
  | st, [] => (st, [])
  | st, (p, m) :: rest =>
      match sendMessage canOpen st p m with
      | .ok (st1, evs) =>
          let r := runSends canOpen st1 rest
          (r.1, evs ++ r.2)
      | .error _ => runSends canOpen st rest

/-- Number of successful opens of a given port name in a boundary trace. -/
def countOpens (name : String) (evs : List PortEvent) : Nat :=
  evs.countP (fun e =>
    match e with
    | .opened n => n == name
    | _ => false)

/-! ### Projections and sample data -/

/-- The device-visible part of a trace: the sends and waits, with the log
mirror calls dropped. -/
def sendsWaits (items : List Item) : List Item :=
  items.filter (fun item =>
    match item with
    | .log _ _ => false
    | _ => true)

/-- A handler result seen through `sendsWaits`. -/
def observed (r : Except String (List Item × String)) :
    Except String (List Item × String) :=
  r.map (fun x => (sendsWaits x.1, x.2))

/-- A concrete track used to instantiate the song theorems: channel 1,
instrument 5, two loops, one quarter-note event with a CC change. -/
def sampleTrack : Track :=
  ⟨none, some 1, some 5, some 2,
    [⟨.single 60, .str "quarter", some 100, some ⟨7, 99⟩⟩]⟩

/-! ### Helper lemmas -/

theorem truthyStr_some {s : String} (h : s ≠ "") : truthyStr (some s) = true := by
  simp [truthyStr, h]

theorem sendsWaits_append (a b : List Item) :
    sendsWaits (a ++ b) = sendsWaits a ++ sendsWaits b := by
  simp [sendsWaits, List.filter_append]

theorem sendsWaits_pairFlatMap {α : Type} (p : String) (f : α → List Int)
    (l : List α) :
    sendsWaits (l.flatMap fun x => [Item.send p (f x), Item.log p (f x)]) =
      l.map fun x => Item.send p (f x) := by
  induction l with
  | nil => rfl
  | cons x xs ih =>
      simp only [List.flatMap_cons, List.map_cons, sendsWaits_append, ← ih]
      rfl

theorem foldl_trace_sum {α β : Type} (f : α → List β) (g : α → Nat)
    (l : List α) :
    ∀ (a0 : List β) (t0 : Nat),
      l.foldl (fun acc x => (acc.1 ++ f x, acc.2 + g x)) (a0, t0) =
        (a0 ++ l.flatMap f, t0 + (l.map g).sum) := by
  induction l with
  | nil => intro a0 t0; simp
  | cons x xs ih =>
      intro a0 t0
      simp only [List.foldl_cons, List.flatMap_cons, List.map_cons, List.sum_cons, ih]
      simp [List.append_assoc, Nat.add_assoc]

theorem flatten_replicate_comm {β : Type} (l : List β) :
    ∀ n, (List.replicate n l).flatten ++ l = l ++ (List.replicate n l).flatten := by
  intro n
  induction n with
  | zero => simp
  | succ n ih =>
      simp only [List.replicate_succ, List.flatten_cons]
      rw [List.append_assoc, ih, ← List.append_assoc]

theorem range_flatMap_const {β : Type} (l : List β) :
    ∀ n, (List.range n).flatMap (fun _ => l) = (List.replicate n l).flatten := by
  intro n
  induction n with
  | zero => rfl
  | succ n ih =>
      rw [List.range_succ, List.flatMap_append, ih, List.replicate_succ,
        List.flatten_cons, ← flatten_replicate_comm]
      simp

theorem mem_noteEventTrace_send_length (p : String) (ch : Int) (beat : Rat)
    (ev : SongNote) (q : String) (b : List Int)
    (hmem : Item.send q b ∈ noteEventTrace p ch beat ev) : b.length = 3 := by
  rcases ev with ⟨note, dur, vel, cc⟩
  cases cc with
  | none =>
      simp only [noteEventTrace, List.mem_append, List.mem_flatMap, List.mem_cons,
        List.mem_singleton, List.not_mem_nil, or_false, false_or] at hmem
      rcases hmem with (h | h) | h
      · obtain ⟨a, -, h | h⟩ := h <;> simp_all
      · simp_all
      · obtain ⟨a, -, h | h⟩ := h <;> simp_all
  | some c =>
      simp only [noteEventTrace, List.mem_append, List.mem_flatMap, List.mem_cons,
        List.mem_singleton, List.not_mem_nil, or_false, false_or] at hmem
      rcases hmem with (((h | h) | h) | h) | h
      · simp_all
      · simp_all
      · obtain ⟨a, -, h | h⟩ := h <;> simp_all
      · simp_all
      · obtain ⟨a, -, h | h⟩ := h <;> simp_all

theorem lookupOut_cons_self (outs : List (String × Nat)) (name : String) (h : Nat) :
    lookupOut ((name, h) :: outs) name = some h := by
  simp [lookupOut, List.find?_cons]

theorem lookupOut_cons_ne (outs : List (String × Nat)) (name k : String) (h : Nat)
    (hne : name ≠ k) : lookupOut ((name, h) :: outs) k = lookupOut outs k := by
  simp [lookupOut, List.find?_cons, hne]

theorem sendMessage_cached (canOpen : String → Bool) (st : MidiServiceSt)
    (name : String) (msg : List Int) (h : Nat)
    (hc : lookupOut st.activeOutputs name = some h) :
    sendMessage canOpen st name msg = .ok (st, [.sent name msg]) := by
  simp [sendMessage, hc]

theorem sendMessage_preserves (canOpen : String → Bool) (st st1 : MidiServiceSt)
    (name : String) (msg : List Int) (evs : List PortEvent)
    (hok : sendMessage canOpen st name msg = .ok (st1, evs)) :
    ∀ (k : String) (h : Nat), lookupOut st.activeOutputs k = some h →
      lookupOut st1.activeOutputs k = some h := by
  intro k h hk
  unfold sendMessage at hok
  cases hl : lookupOut st.activeOutputs name with
  | some x =>
      rw [hl] at hok
      simp only [Except.ok.injEq, Prod.mk.injEq] at hok
      rw [← hok.1]
      exact hk
  | none =>
      rw [hl] at hok
      by_cases hcan : canOpen name = true
      · simp only [hcan, if_true, Except.ok.injEq, Prod.mk.injEq] at hok
        have hne : name ≠ k := by
          intro he
          rw [he, hk] at hl
          exact Option.noConfusion hl
        rw [← hok.1]
        rw [lookupOut_cons_ne st.activeOutputs name k st.nextHandle hne]
        exact hk
      · simp only [hcan] at hok
        simp at hok

theorem countOpens_append (name : String) (a b : List PortEvent) :
    countOpens name (a ++ b) = countOpens name a + countOpens name b := by
  simp [countOpens, List.countP_append]

theorem runSends_no_reopen (canOpen : String → Bool) :
    ∀ (calls : List (String × List Int)) (st : MidiServiceSt) (name : String),
      (lookupOut st.activeOutputs name).isSome = true →
      countOpens name (runSends canOpen st calls).2 = 0 := by
  intro calls
  induction calls with
  | nil => intro st name _; simp [runSends, countOpens]
  | cons c rest ih =>
      intro st name h
      obtain ⟨p, m⟩ := c
      simp only [runSends]
      cases hl : lookupOut st.activeOutputs p with
      | some x =>
          rw [sendMessage_cached canOpen st p m x hl]
          simp only [countOpens_append, ih st name h, Nat.add_zero]
          simp [countOpens]
      | none =>
          by_cases hcan : canOpen p = true
          · have hpn : ¬ p = name := by
              intro he
              subst he
              rw [hl] at h
              simp at h
            simp only [sendMessage, hl, hcan, if_true]
            have hpres : (lookupOut ((p, st.nextHandle) :: st.activeOutputs) name).isSome = true := by
              rw [lookupOut_cons_ne st.activeOutputs p name st.nextHandle hpn]
              exact h
            simp only [countOpens_append,
              ih ⟨(p, st.nextHandle) :: st.activeOutputs, st.nextHandle + 1⟩ name hpres,
              Nat.add_zero]
            simp [countOpens, hpn]
          · simp only [sendMessage, hl, hcan, if_false]
            exact ih st name h

theorem runSends_open_once (canOpen : String → Bool) :
    ∀ (calls : List (String × List Int)) (st : MidiServiceSt) (name : String),
      countOpens name (runSends canOpen st calls).2 ≤ 1 := by
  intro calls
  induction calls with
  | nil => intro st name; simp [runSends, countOpens]
  | cons c rest ih =>
      intro st name
      obtain ⟨p, m⟩ := c
      simp only [runSends]
      cases hl : lookupOut st.activeOutputs p with
      | some x =>
          rw [sendMessage_cached canOpen st p m x hl]
          simp only [countOpens_append]
          have : countOpens name [PortEvent.sent p m] = 0 := by simp [countOpens]
          rw [this, Nat.zero_add]
          exact ih st name
      | none =>
          by_cases hcan : canOpen p = true
          · simp only [sendMessage, hl, hcan, if_true]
            simp only [countOpens_append]
            by_cases hpn : p = name
            · subst hpn
              have hcached :
                  (lookupOut ((p, st.nextHandle) :: st.activeOutputs) p).isSome = true := by
                rw [lookupOut_cons_self]
                rfl
              rw [runSends_no_reopen canOpen rest
                ⟨(p, st.nextHandle) :: st.activeOutputs, st.nextHandle + 1⟩ p hcached]
              simp [countOpens]
            · have : countOpens name [PortEvent.opened p, PortEvent.sent p m] = 0 := by
                simp [countOpens, hpn]
              rw [this, Nat.zero_add]
              exact ih _ name
          · simp only [sendMessage, hl, hcan, if_false]
            exact ih st name

/-! ### Claim theorems -/

/-- C4: with `beatDurationMs bpm = (60 / bpm) * 1000`, the duration resolver
maps a numeric duration `d` to `d * beatDurationMs`, `"whole"` to `4×`,
`"half"` to `2×`, `"quarter"` to `1×`, `"eighth"` to `0.5×`, `"sixteenth"`
to `0.25×`, and every other symbolic value to the quarter-note duration
without an error; in particular `resolve("quarter", 120) = 500`,
`resolve("eighth", 120) = 250`, `resolve(2, 120) = 1000` and
`resolve("half", 60) = 2000`. -/
theorem duration_resolver :
    (∀ bpm d : Rat, getDuration (beatDurationMs bpm) (.num d) = d * beatDurationMs bpm)
  ∧ (∀ bpm : Rat, getDuration (beatDurationMs bpm) (.str "whole") = 4 * beatDurationMs bpm)
  ∧ (∀ bpm : Rat, getDuration (beatDurationMs bpm) (.str "half") = 2 * beatDurationMs bpm)
  ∧ (∀ bpm : Rat, getDuration (beatDurationMs bpm) (.str "quarter") = beatDurationMs bpm)
  ∧ (∀ bpm : Rat, getDuration (beatDurationMs bpm) (.str "eighth") = (1/2) * beatDurationMs bpm)
  ∧ (∀ bpm : Rat, getDuration (beatDurationMs bpm) (.str "sixteenth") = (1/4) * beatDurationMs bpm)
  ∧ (∀ (bpm : Rat) (s : String), s ≠ "whole" → s ≠ "half" → s ≠ "quarter" →
        s ≠ "eighth" → s ≠ "sixteenth" →
        getDuration (beatDurationMs bpm) (.str s) = beatDurationMs bpm)
  ∧ getDuration (beatDurationMs 120) (.str "quarter") = 500
  ∧ getDuration (beatDurationMs 120) (.str "eighth") = 250
  ∧ getDuration (beatDurationMs 120) (.num 2) = 1000
  ∧ getDuration (beatDurationMs 60) (.str "half") = 2000 := by
  refine ⟨fun bpm d => rfl, fun bpm => by simp [getDuration]; ring,
    fun bpm => by simp [getDuration]; ring, fun bpm => by simp [getDuration],
    fun bpm => by simp [getDuration]; ring, fun bpm => by simp [getDuration]; ring,
    fun bpm s h1 h2 h3 h4 h5 => by simp [getDuration, h1, h2, h3, h4, h5],
    by simp [getDuration, beatDurationMs]; norm_num,
    by simp [getDuration, beatDurationMs]; norm_num,
    by simp [getDuration, beatDurationMs]; norm_num,
    by simp [getDuration, beatDurationMs]; norm_num⟩

/-- C4 witness: the fallback clause applied to the unrecognized value
`"dotted"` at bpm 120. -/
theorem duration_resolver_witness :
    getDuration (beatDurationMs 120) (.str "dotted") = beatDurationMs 120 :=
  duration_resolver.2.2.2.2.2.2.1 120 "dotted" (by decide) (by decide) (by decide)
    (by decide) (by decide)

/-- C5: for `value ∈ [-8192, 8191]` and channel `c ∈ [1, 16]`,
`midi_pitch_bend` sends `[0xE0+(c-1), (v+8192) & 0x7F, ((v+8192) >> 7) & 0x7F]`
(both data bytes landing in `[0, 127]` and recombining to `v + 8192`);
in particular `v = -8192` yields data bytes `[0x00, 0x00]`, `v = 0` yields
`[0x00, 0x40]`, and `v = 8191` yields `[0x7F, 0x7F]`. -/
theorem pitchBend_encode (port : String) (hport : port ≠ "")
    (v : Int) (hv : -8192 ≤ v ∧ v ≤ 8191)
    (c : Int) (hc : 1 ≤ c ∧ c ≤ 16) :
    midi_pitch_bend ⟨some port, some v, some c⟩ =
      .ok ([Item.send port
              [0xE0 + (c - 1), (v + 8192) % 128, (v + 8192) / 128 % 128],
            Item.log port
              [0xE0 + (c - 1), (v + 8192) % 128, (v + 8192) / 128 % 128]],
        "Pitch Bend: " ++ toString v ++ ", channel " ++ toString c)
  ∧ (0 ≤ (v + 8192) % 128 ∧ (v + 8192) % 128 ≤ 127
      ∧ 0 ≤ (v + 8192) / 128 % 128 ∧ (v + 8192) / 128 % 128 ≤ 127)
  ∧ (v + 8192) % 128 + 128 * ((v + 8192) / 128 % 128) = v + 8192
  ∧ midi_pitch_bend ⟨some "out", some (-8192), some 1⟩ =
      .ok ([Item.send "out" [0xE0, 0x00, 0x00], Item.log "out" [0xE0, 0x00, 0x00]],
        "Pitch Bend: -8192, channel 1")
  ∧ midi_pitch_bend ⟨some "out", some 0, some 1⟩ =
      .ok ([Item.send "out" [0xE0, 0x00, 0x40], Item.log "out" [0xE0, 0x00, 0x40]],
        "Pitch Bend: 0, channel 1")
  ∧ midi_pitch_bend ⟨some "out", some 8191, some 1⟩ =
      .ok ([Item.send "out" [0xE0, 0x7F, 0x7F], Item.log "out" [0xE0, 0x7F, 0x7F]],
        "Pitch Bend: 8191, channel 1") := by
  refine ⟨?_, by omega, by omega, by rfl, by rfl, by rfl⟩
  have hc1 : c - 1 + 1 = c := by ring
  simp [midi_pitch_bend, truthyStr_some hport, hc1]

/-- C5 witness: the encoder at `v = 69`, channel 2. -/
theorem pitchBend_encode_witness :
    midi_pitch_bend ⟨some "out", some 69, some 2⟩ =
      .ok ([Item.send "out"
              [0xE0 + (2 - 1), ((69 : Int) + 8192) % 128, ((69 : Int) + 8192) / 128 % 128],
            Item.log "out"
              [0xE0 + (2 - 1), ((69 : Int) + 8192) % 128, ((69 : Int) + 8192) / 128 % 128]],
        "Pitch Bend: " ++ toString (69 : Int) ++ ", channel " ++ toString (2 : Int)) :=
  (pitchBend_encode "out" (by decide) 69 (by decide) 2 (by decide)).1

/-- C6 counterexample: a `midi_note_on` request with the out-of-range note 128
is not rejected — the handler succeeds and a MIDI message carrying 128 is
sent (and logged), contradicting "a ValidationError is raised before any
device interaction: no MIDI message is sent". -/
theorem range_check_cex :
    midi_note_on ⟨some "out", some 128, none, none⟩ =
      .ok ([Item.send "out" [0x90, 128, 64], Item.log "out" [0x90, 128, 64]],
        "Note On: note 128, velocity 64, channel 1") := by
  rfl

/-- C6 amended: the handlers perform no numeric range validation at all —
for every numeric field value, in range or not (channel 0 or 17, note 128,
controller value 200, ...), `midi_note_on` and `midi_control_change` succeed
and send the encoded message built from the raw values; only missing required
fields are rejected. -/
theorem range_check_amended (port : String) (hport : port ≠ "")
    (note velocity channel controller value : Int) :
    midi_note_on ⟨some port, some note, some velocity, some channel⟩ =
      .ok ([Item.send port [0x90 + (channel - 1), note, velocity],
            Item.log port [0x90 + (channel - 1), note, velocity]],
        "Note On: note " ++ toString note ++ ", velocity " ++ toString velocity ++
          ", channel " ++ toString channel)
  ∧ midi_control_change ⟨some port, some controller, some value, some channel⟩ =
      .ok ([Item.send port [0xB0 + (channel - 1), controller, value],
            Item.log port [0xB0 + (channel - 1), controller, value]],
        "CC: controller " ++ toString controller ++ ", value " ++ toString value ++
          ", channel " ++ toString channel) := by
  have hc1 : channel - 1 + 1 = channel := by ring
  constructor
  · simp [midi_note_on, truthyStr_some hport, hc1]
  · simp [midi_control_change, truthyStr_some hport, hc1]

/-- C6 witness: a note-on at channel 17 and note 200 goes straight through. -/
theorem range_check_amended_witness :
    midi_note_on ⟨some "out", some 200, some 64, some 17⟩ =
      .ok ([Item.send "out" [0x90 + (17 - 1), 200, 64],
            Item.log "out" [0x90 + (17 - 1), 200, 64]],
        "Note On: note " ++ toString (200 : Int) ++ ", velocity " ++
          toString (64 : Int) ++ ", channel " ++ toString (17 : Int)) :=
  (range_check_amended "out" (by decide) 200 64 17 0 0).1

/-- C10: for every present `bytes` array — empty or longer than 3 bytes
included — `midi_send` forwards the array to the port and appends it to the
log verbatim, with no length or value check. -/
theorem sendRaw_verbatim (port : String) (hport : port ≠ "") (bytes : List Int) :
    midi_send ⟨some port, some bytes⟩ =
      .ok ([Item.send port bytes, Item.log port bytes],
        "Sent MIDI message to " ++ port)
  ∧ runHandler (midi_send ⟨some port, some bytes⟩) [] =
      ([(port, bytes)], .ok ("Sent MIDI message to " ++ port)) := by
  have h1 : midi_send ⟨some port, some bytes⟩ =
      .ok ([Item.send port bytes, Item.log port bytes],
        "Sent MIDI message to " ++ port) := by
    simp [midi_send, truthyStr_some hport]
  exact ⟨h1, by rw [h1]; rfl⟩

/-- C10 witness: the empty array and a 5-byte array are both accepted and
forwarded verbatim. -/
theorem sendRaw_verbatim_witness :
    (midi_send ⟨some "out", some []⟩ =
      .ok ([Item.send "out" [], Item.log "out" []],
        "Sent MIDI message to " ++ "out"))
  ∧ (midi_send ⟨some "out", some [1, 2, 3, 4, 5]⟩ =
      .ok ([Item.send "out" [1, 2, 3, 4, 5], Item.log "out" [1, 2, 3, 4, 5]],
        "Sent MIDI message to " ++ "out")) :=
  ⟨(sendRaw_verbatim "out" (by decide) []).1,
   (sendRaw_verbatim "out" (by decide) [1, 2, 3, 4, 5]).1⟩

/-- C7: every handler rejects a request that omits a required field with an
error naming the missing fields, before any send; replaying such a failed
call against the log ring leaves the ring unchanged. -/
theorem missing_fields_fail :
    (∀ a : SendArgs, a.port = none ∨ a.bytes = none →
        midi_send a = .error "Missing arguments: port and bytes are required")
  ∧ (∀ a : NoteArgs, a.port = none ∨ a.note = none →
        midi_note_on a = .error "Missing arguments: port and note are required"
        ∧ midi_note_off a = .error "Missing arguments: port and note are required")
  ∧ (∀ a : PlayNoteArgs, a.port = none ∨ a.note = none →
        midi_play_note a = .error "Missing arguments: port and note are required")
  ∧ (∀ a : CCArgs, a.port = none ∨ a.controller = none ∨ a.value = none →
        midi_control_change a =
          .error "Missing arguments: port, controller, and value are required")
  ∧ (∀ a : ProgramArgs, a.port = none ∨ a.program = none →
        midi_program_change a =
          .error "Missing arguments: port and program are required")
  ∧ (∀ a : BendArgs, a.port = none ∨ a.value = none →
        midi_pitch_bend a = .error "Missing arguments: port and value are required")
  ∧ (∀ a : SeqArgs, a.port = none ∨ a.notes = none →
        midi_play_sequence a = .error "Missing arguments: port and notes are required")
  ∧ (∀ a : ChordArgs, a.port = none ∨ a.notes = none →
        midi_play_chord a = .error "Missing arguments: port and notes are required")
  ∧ (∀ a : SongArgs, a.port = none ∨ a.tracks = none →
        midi_play_song a = .error "Missing arguments: port and tracks are required")
  ∧ (∀ (e : String) (logs : List (String × List Int)),
        runHandler (.error e) logs = (logs, .error e))
  ∧ (∀ (e : String) (logs : List (String × List Int)),
        runPlayNote (.error e) logs = (logs, .error e)) := by
  refine ⟨?_, ?_, ?_, ?_, ?_, ?_, ?_, ?_, ?_, fun e logs => rfl, fun e logs => rfl⟩
  · rintro a (h | h) <;> simp [midi_send, h, truthyStr]
  · rintro a (h | h) <;>
      exact ⟨by simp [midi_note_on, h, truthyStr],
             by simp [midi_note_off, h, truthyStr]⟩
  · rintro a (h | h) <;> simp [midi_play_note, h, truthyStr]
  · rintro a (h | h | h) <;> simp [midi_control_change, h, truthyStr]
  · rintro a (h | h) <;> simp [midi_program_change, h, truthyStr]
  · rintro a (h | h) <;> simp [midi_pitch_bend, h, truthyStr]
  · rintro a (h | h) <;> simp [midi_play_sequence, h, truthyStr]
  · rintro a (h | h) <;> simp [midi_play_chord, h, truthyStr]
  · rintro a (h | h) <;> simp [midi_play_song, h, truthyStr]

/-- C7 witness: a `midi_send` without a port and a `midi_play_sequence`
without notes both fail with the naming error and leave a sample log ring
unchanged. -/
theorem missing_fields_fail_witness :
    (midi_send ⟨none, some [144, 60, 100]⟩ =
      .error "Missing arguments: port and bytes are required")
  ∧ (midi_play_sequence ⟨some "out", none, some 1⟩ =
      .error "Missing arguments: port and notes are required")
  ∧ runHandler (.error "Missing arguments: port and bytes are required")
      [("out", [1, 2])] =
      ([("out", [1, 2])], .error "Missing arguments: port and bytes are required") :=
  ⟨missing_fields_fail.1 ⟨none, some [144, 60, 100]⟩ (Or.inl rfl),
   missing_fields_fail.2.2.2.2.2.2.1 ⟨some "out", none, some 1⟩ (Or.inr rfl),
   missing_fields_fail.2.2.2.2.2.2.2.2.2.1
     "Missing arguments: port and bytes are required" [("out", [1, 2])]⟩

set_option maxRecDepth 10000 in
/-- C8: every append keeps the log at ≤ 100 entries with the newest entry at
the head; at 100 entries an append evicts exactly the oldest (tail) entry;
concretely, after 101 inserts the 101st entry is at the head and the
first-inserted entry is gone. -/
theorem log_ring_bounded :
    (∀ (e : Nat) (logs : List Nat), logs.length ≤ 100 →
        (logMidi e logs).length ≤ 100 ∧ (logMidi e logs).head? = some e)
  ∧ (∀ (e : Nat) (logs : List Nat), logs.length = 100 →
        logMidi e logs = e :: logs.dropLast)
  ∧ ((List.range 101).foldl (fun acc e => logMidi e acc) []).head? = some 100
  ∧ 0 ∉ (List.range 101).foldl (fun acc e => logMidi e acc) [] := by
  refine ⟨?_, ?_, by rfl, by decide⟩
  · intro e logs hlen
    unfold logMidi
    by_cases h : (e :: logs).length > 100
    · simp only [h, if_true]
      cases logs with
      | nil => simp at h
      | cons b l =>
          constructor
          · simp only [List.length_dropLast, List.length_cons] at *
            omega
          · simp [List.dropLast_cons₂]
    · simp only [h, if_false]
      constructor
      · simp only [List.length_cons] at h ⊢
        omega
      · rfl
  · intro e logs hlen
    unfold logMidi
    have h : (e :: logs).length > 100 := by simp [hlen]
    simp only [h, if_true]
    cases logs with
    | nil => simp at hlen
    | cons b l => simp [List.dropLast_cons₂]

/-- C8 witness: an append to a 2-entry ring keeps it within capacity with the
new entry at the head. -/
theorem log_ring_bounded_witness :
    (logMidi 7 [5, 6]).length ≤ 100 ∧ (logMidi 7 [5, 6]).head? = some 7 :=
  log_ring_bounded.1 7 [5, 6] (by decide)

/-- C9: `sendMessage` opens an output port at most once per name — a cached
name is reused with no open and no state change; an uncached open stores the
handle under the name; a successful call never removes cache entries; and
across any sequence of calls a name is opened at most once (zero times once
it is cached). -/
theorem sendMessage_cache_spec (canOpen : String → Bool) :
    (∀ (st : MidiServiceSt) (name : String) (msg : List Int) (h : Nat),
        lookupOut st.activeOutputs name = some h →
        sendMessage canOpen st name msg = .ok (st, [.sent name msg]))
  ∧ (∀ (st : MidiServiceSt) (name : String) (msg : List Int),
        lookupOut st.activeOutputs name = none → canOpen name = true →
        sendMessage canOpen st name msg =
          .ok (⟨(name, st.nextHandle) :: st.activeOutputs, st.nextHandle + 1⟩,
            [.opened name, .sent name msg])
        ∧ lookupOut ((name, st.nextHandle) :: st.activeOutputs) name =
            some st.nextHandle)
  ∧ (∀ (st st1 : MidiServiceSt) (name : String) (msg : List Int)
        (evs : List PortEvent),
        sendMessage canOpen st name msg = .ok (st1, evs) →
        ∀ (k : String) (h : Nat), lookupOut st.activeOutputs k = some h →
          lookupOut st1.activeOutputs k = some h)
  ∧ (∀ (calls : List (String × List Int)) (st : MidiServiceSt) (name : String),
        (lookupOut st.activeOutputs name).isSome = true →
        countOpens name (runSends canOpen st calls).2 = 0)
  ∧ (∀ (calls : List (String × List Int)) (st : MidiServiceSt) (name : String),
        countOpens name (runSends canOpen st calls).2 ≤ 1) := by
  refine ⟨sendMessage_cached canOpen, ?_, sendMessage_preserves canOpen,
    runSends_no_reopen canOpen, runSends_open_once canOpen⟩
  intro st name msg hl hcan
  constructor
  · simp [sendMessage, hl, hcan]
  · exact lookupOut_cons_self st.activeOutputs name st.nextHandle

/-- C9 witness: a cached "out" handle is reused without a state change, and
no later call sequence reopens a cached name. -/
theorem sendMessage_cache_spec_witness :
    sendMessage (fun _ => true) ⟨[("out", 0)], 1⟩ "out" [144, 60, 100] =
      .ok (⟨[("out", 0)], 1⟩, [.sent "out" [144, 60, 100]])
  ∧ countOpens "out"
      (runSends (fun _ => true) ⟨[("out", 0)], 1⟩
        [("out", [144, 60, 100]), ("synth", [192, 5]), ("out", [128, 60, 100])]).2 = 0 :=
  ⟨(sendMessage_cache_spec (fun _ => true)).1 ⟨[("out", 0)], 1⟩ "out"
      [144, 60, 100] 0 (by rfl),
   (sendMessage_cache_spec (fun _ => true)).2.2.2.1
      [("out", [144, 60, 100]), ("synth", [192, 5]), ("out", [128, 60, 100])]
      ⟨[("out", 0)], 1⟩ "out" (by rfl)⟩

/-- C2: for a non-empty note list, `midi_play_chord` sends exactly one
note-on per note in list order with no wait in between, then one wait of the
duration, then one note-off per note in the same order, and reports
"Played chord with N notes for Dms on channel c"; omitted velocity,
duration and channel behave as 64, 500 and 1. -/
theorem playChord_trace (port : String) (hport : port ≠ "")
    (notes : List Int) (hnotes : notes ≠ [])
    (velocity : Int) (duration : Nat) (c : Int) (hc : 1 ≤ c ∧ c ≤ 16) :
    observed (midi_play_chord
        ⟨some port, some notes, some velocity, some duration, some c⟩) =
      .ok (notes.map (fun note => Item.send port [0x90 + (c - 1), note, velocity])
            ++ [Item.wait (duration : Rat)]
            ++ notes.map (fun note => Item.send port [0x80 + (c - 1), note, velocity]),
        "Played chord with " ++ toString notes.length ++ " notes for " ++
          toString duration ++ "ms on channel " ++ toString c)
  ∧ midi_play_chord ⟨some port, some notes, none, none, none⟩ =
      midi_play_chord ⟨some port, some notes, some 64, some 500, some 1⟩ := by
  have hne : notes.isEmpty = false := by
    cases notes with
    | nil => exact absurd rfl hnotes
    | cons a l => rfl
  have hc1 : c - 1 + 1 = c := by ring
  constructor
  · simp only [observed, midi_play_chord, truthyStr_some hport, Option.isNone_some,
      Option.getD_some, hne, Bool.not_true, Bool.false_or, Bool.or_self,
      Bool.false_eq_true, if_false, Except.map, hc1]
    rw [sendsWaits_append, sendsWaits_append, sendsWaits_pairFlatMap,
      sendsWaits_pairFlatMap]
    rfl
  · rfl

/-- C2 witness: the chord `[60, 64, 67]` at velocity 100, 300 ms, channel 1. -/
theorem playChord_trace_witness :
    observed (midi_play_chord
        ⟨some "out", some [60, 64, 67], some 100, some 300, some 1⟩) =
      .ok ([60, 64, 67].map (fun note => Item.send "out" [0x90 + (1 - 1), note, 100])
            ++ [Item.wait ((300 : Nat) : Rat)]
            ++ [60, 64, 67].map (fun note => Item.send "out" [0x80 + (1 - 1), note, 100]),
        "Played chord with " ++ toString ([60, 64, 67] : List Int).length ++
          " notes for " ++ toString (300 : Nat) ++ "ms on channel " ++
          toString (1 : Int)) :=
  (playChord_trace "out" (by decide) [60, 64, 67] (by decide) 100 300 1 (by decide)).1

/-- C3: `midi_play_sequence` handles the events strictly in list order —
note-on, wait of the event's duration (default 500 ms), note-off, then the
next event — and reports "Played sequence of N notes (Tms total)" with T the
sum of the per-event durations. -/
theorem playSequence_trace (port : String) (hport : port ≠ "")
    (notes : List SeqNote) (hnotes : notes ≠ [])
    (c : Int) (hc : 1 ≤ c ∧ c ≤ 16) :
    midi_play_sequence ⟨some port, some notes, some c⟩ =
      .ok (notes.flatMap (fun ni =>
            [Item.send port [0x90 + (c - 1), ni.note, ni.velocity.getD 64],
             Item.log port [0x90 + (c - 1), ni.note, ni.velocity.getD 64],
             Item.wait ((ni.duration.getD 500 : Nat) : Rat),
             Item.send port [0x80 + (c - 1), ni.note, ni.velocity.getD 64],
             Item.log port [0x80 + (c - 1), ni.note, ni.velocity.getD 64]]),
        "Played sequence of " ++ toString notes.length ++ " notes (" ++
          toString (notes.map (fun ni => ni.duration.getD 500)).sum ++
          "ms total) on channel " ++ toString c) := by
  have hne : notes.isEmpty = false := by
    cases notes with
    | nil => exact absurd rfl hnotes
    | cons a l => rfl
  have hc1 : c - 1 + 1 = c := by ring
  have h := foldl_trace_sum
    (fun ni : SeqNote =>
      [Item.send port [0x90 + (c - 1), ni.note, ni.velocity.getD 64],
       Item.log port [0x90 + (c - 1), ni.note, ni.velocity.getD 64],
       Item.wait ((ni.duration.getD 500 : Nat) : Rat),
       Item.send port [0x80 + (c - 1), ni.note, ni.velocity.getD 64],
       Item.log port [0x80 + (c - 1), ni.note, ni.velocity.getD 64]])
    (fun ni => ni.duration.getD 500) notes [] 0
  simp only [midi_play_sequence, truthyStr_some hport, Option.isNone_some,
    Option.getD_some, hne, Bool.not_true, Bool.false_or, Bool.or_self,
    Bool.false_eq_true, if_false, hc1, h, List.nil_append, Nat.zero_add]

/-- C3 witness: the two-event sequence `[{60, 200 ms}, {62, 300 ms}]` on
channel 1. -/
theorem playSequence_trace_witness :
    midi_play_sequence
        ⟨some "out", some [⟨60, none, some 200⟩, ⟨62, none, some 300⟩], some 1⟩ =
      .ok (([⟨60, none, some 200⟩, ⟨62, none, some 300⟩] : List SeqNote).flatMap
            (fun ni =>
              [Item.send "out" [0x90 + (1 - 1), ni.note, ni.velocity.getD 64],
               Item.log "out" [0x90 + (1 - 1), ni.note, ni.velocity.getD 64],
               Item.wait ((ni.duration.getD 500 : Nat) : Rat),
               Item.send "out" [0x80 + (1 - 1), ni.note, ni.velocity.getD 64],
               Item.log "out" [0x80 + (1 - 1), ni.note, ni.velocity.getD 64]]),
        "Played sequence of " ++
          toString ([⟨60, none, some 200⟩, ⟨62, none, some 300⟩] : List SeqNote).length ++
          " notes (" ++
          toString (([⟨60, none, some 200⟩, ⟨62, none, some 300⟩] : List SeqNote).map
            (fun ni => ni.duration.getD 500)).sum ++
          "ms total) on channel " ++ toString (1 : Int)) :=
  playSequence_trace "out" (by decide) [⟨60, none, some 200⟩, ⟨62, none, some 300⟩]
    (by decide) 1 (by decide)

/-- C1: for every track of `midi_play_song`: with an instrument present,
exactly one program-change message `[0xC0+(channel-1), instrument]` heads the
track's trace before any other message; the full note-event sequence is
emitted loop-count times (default 1) in declared order; and within each
event, an attached CC message is emitted before the event's note-ons, and
every note-on before that event's note-offs, separated by one wait. -/
theorem playSong_per_track (port : String) (hport : port ≠ "")
    (bpm : Rat) (tracks : List Track) (htracks : tracks ≠ []) :
    midi_play_song ⟨some port, some bpm, some tracks⟩ =
      .ok (tracks.map (trackTrace port (beatDurationMs bpm)),
        "Played song with " ++ toString tracks.length ++ " tracks at " ++
          toString bpm ++ " BPM")
  ∧ ∀ track ∈ tracks,
      (trackTrace port (beatDurationMs bpm) track =
        (match track.instrument with
          | some i =>
              [Item.send (track.port.getD port) [0xC0 + (track.channel.getD 1 - 1), i],
               Item.log (track.port.getD port) [0xC0 + (track.channel.getD 1 - 1), i]]
          | none => []) ++
        (List.replicate (track.loop.getD 1)
          (track.notes.flatMap
            (noteEventTrace (track.port.getD port) (track.channel.getD 1 - 1)
              (beatDurationMs bpm)))).flatten)
      ∧ (∀ i, track.instrument = some i →
          (trackTrace port (beatDurationMs bpm) track).head? =
            some (Item.send (track.port.getD port)
              [0xC0 + (track.channel.getD 1 - 1), i])
          ∧ (trackTrace port (beatDurationMs bpm) track).count
              (Item.send (track.port.getD port)
                [0xC0 + (track.channel.getD 1 - 1), i]) = 1)
      ∧ (∀ ev : SongNote,
          sendsWaits (noteEventTrace (track.port.getD port)
              (track.channel.getD 1 - 1) (beatDurationMs bpm) ev) =
            (match ev.cc with
              | some cc =>
                  [Item.send (track.port.getD port)
                    [0xB0 + (track.channel.getD 1 - 1), cc.controller, cc.value]]
              | none => []) ++
            (eventNotes ev.note).map (fun note =>
              Item.send (track.port.getD port)
                [0x90 + (track.channel.getD 1 - 1), note, ev.velocity.getD 64]) ++
            [Item.wait (getDuration (beatDurationMs bpm) ev.duration)] ++
            (eventNotes ev.note).map (fun note =>
              Item.send (track.port.getD port)
                [0x80 + (track.channel.getD 1 - 1), note, ev.velocity.getD 64])) := by
  have hne : tracks.isEmpty = false := by
    cases tracks with
    | nil => exact absurd rfl htracks
    | cons a l => rfl
  constructor
  · simp only [midi_play_song, truthyStr_some hport, Option.isNone_some,
      Option.getD_some, hne, Bool.not_true, Bool.false_or, Bool.or_self,
      Bool.false_eq_true, if_false]
  · intro track _
    have hdec : trackTrace port (beatDurationMs bpm) track =
        (match track.instrument with
          | some i =>
              [Item.send (track.port.getD port) [0xC0 + (track.channel.getD 1 - 1), i],
               Item.log (track.port.getD port) [0xC0 + (track.channel.getD 1 - 1), i]]
          | none => []) ++
        (List.replicate (track.loop.getD 1)
          (track.notes.flatMap
            (noteEventTrace (track.port.getD port) (track.channel.getD 1 - 1)
              (beatDurationMs bpm)))).flatten := by
      simp only [trackTrace]
      rw [range_flatMap_const]
    refine ⟨hdec, ?_, ?_⟩
    · intro i hi
      have hnotmem : Item.send (track.port.getD port)
          [0xC0 + (track.channel.getD 1 - 1), i] ∉
          (List.replicate (track.loop.getD 1)
            (track.notes.flatMap
              (noteEventTrace (track.port.getD port) (track.channel.getD 1 - 1)
                (beatDurationMs bpm)))).flatten := by
        intro hmem
        obtain ⟨l, hl, hmem⟩ := List.mem_flatten.mp hmem
        rw [List.eq_of_mem_replicate hl] at hmem
        obtain ⟨ev, -, hmem⟩ := List.mem_flatMap.mp hmem
        have := mem_noteEventTrace_send_length (track.port.getD port)
          (track.channel.getD 1 - 1) (beatDurationMs bpm) ev
          (track.port.getD port) [0xC0 + (track.channel.getD 1 - 1), i] hmem
        simp at this
      rw [hdec, hi]
      constructor
      · rfl
      · simp only [List.cons_append, List.nil_append, List.count_cons]
        rw [List.count_eq_zero.mpr hnotmem]
        simp
    · intro ev
      simp only [noteEventTrace]
      rw [sendsWaits_append, sendsWaits_append, sendsWaits_append,
        sendsWaits_pairFlatMap, sendsWaits_pairFlatMap]
      cases ev.cc with
      | none => rfl
      | some cc => rfl

/-- C1 witness: a one-track song (instrument 5, channel 1, two loops, a
single quarter-note event with a CC change) at 120 BPM: the handler returns
the track trace, and the program change heads the trace exactly once. -/
theorem playSong_per_track_witness :
    midi_play_song ⟨some "out", some 120, some [sampleTrack]⟩ =
      .ok ([trackTrace "out" (beatDurationMs 120) sampleTrack],
        "Played song with " ++ toString ([sampleTrack] : List Track).length ++
          " tracks at " ++ toString (120 : Rat) ++ " BPM")
  ∧ (trackTrace "out" (beatDurationMs 120) sampleTrack).head? =
      some (Item.send (sampleTrack.port.getD "out")
        [0xC0 + (sampleTrack.channel.getD 1 - 1), 5])
  ∧ (trackTrace "out" (beatDurationMs 120) sampleTrack).count
      (Item.send (sampleTrack.port.getD "out")
        [0xC0 + (sampleTrack.channel.getD 1 - 1), 5]) = 1 := by
  have h := playSong_per_track "out" (by decide) 120 [sampleTrack] (by decide)
  have h2 := (h.2 sampleTrack (by simp)).2.1 5 (by rfl)
  exact ⟨h.1, h2.1, h2.2⟩

end MidiMcp
